import Mathlib

/-!
# Verification of the wallet transfer core

A shallow embedding of the `wallet` Go service (package `wallet`,
files `service.go`, `endpoints.go`, HTTP transport) in Lean 4.

Modelling decisions:
* `decimal.Decimal` (shopspring, arbitrary-precision decimal) is modelled by
  `ℚ`: addition, subtraction and the sign tests used by the code are exact on
  decimals and agree with the corresponding rational operations.
  `IsPositive` is `0 < ·`, `IsNegative` is `· < 0`.
* The Postgres store is a `Store`: the `accounts` table as a list of rows,
  the `payments` table as a list of rows, and the `SERIAL` counter that
  assigns payment ids.
* The SQL `SELECT ... WHERE id = $1 OR id = $2 ORDER BY id FOR UPDATE` is
  `accountsQuery`: filter then sort by id; the ids of its result, in order,
  are the sequence in which row locks are acquired (`lockSequence`).
* The Go map `accountsByID` (built by forward insertion, last write wins)
  is `lookupLast`, which returns the last matching element of the list.
* `UPDATE accounts SET balance = $1 WHERE id = $2` is `updateBalance`,
  which rewrites the balance of every row whose id matches.
* The transaction (`Begin` / `defer Rollback` / `Commit`) is modelled by
  `sendPayment` returning `Except Err Store`: `.ok st'` is a committed
  transaction and `.error e` a rolled-back one, so the observable state
  after the call is `runSendPayment`.  Store-level failures of `Begin`,
  `Query`, the two `UPDATE`s, the `INSERT` and `Commit` are injected by a
  `StoreOracle` so that mid-transaction failures are reachable.
-/

/-- The error taxonomy: the sentinel error values of `service.go` plus
`ErrMalformedJSON` from the HTTP transport, and `storeErr` for any other
error (store/driver failures), which the Go code propagates as-is. -/
inductive Err where
  | accountNotFound
  | accountNotSpecified
  | currencyMismatch
  | insufficientBalance
  | invalidAmount
  | sameAccount
  | malformedJSON
  | storeErr (msg : String)
deriving DecidableEq, Repr

/-- A row of the `accounts` table (`Account` struct in `service.go`). -/
structure Account where
  id : String
  balance : ℚ
  currency : String
deriving DecidableEq, Repr

/-- A row of the `payments` table (`Payment` struct in `service.go`). -/
structure Payment where
  id : ℕ
  fromAccountID : String
  toAccountID : String
  amount : ℚ
deriving DecidableEq, Repr

/-- The persistent state: both tables plus the `SERIAL` counter for
payment ids. -/
structure Store where
  accounts : List Account
  payments : List Payment
  nextPaymentID : ℕ
deriving DecidableEq, Repr

/-- Outcome flags for the store operations performed inside the
transaction of `SendPayment`, used to inject store-level failures. -/
structure StoreOracle where
  beginOk : Bool
  queryOk : Bool
  updateFromOk : Bool
  updateToOk : Bool
  insertOk : Bool
  commitOk : Bool
deriving DecidableEq, Repr

/-- The oracle where every store operation succeeds. -/
def StoreOracle.allOk : StoreOracle := ⟨true, true, true, true, true, true⟩

/-- The sort key of an account id: its code points.  `ORDER BY id` on the
`TEXT` column is modelled as the lexicographic order on these keys. -/
def idKey (s : String) : List ℕ := s.data.map Char.toNat

/-- The total order on account ids used by `ORDER BY id`. -/
def idLe (a b : String) : Prop := idKey a ≤ idKey b

instance : DecidableRel idLe := fun a b => inferInstanceAs (Decidable (idKey a ≤ idKey b))

/-- Ordering of account rows by id, the `ORDER BY id` of the SQL queries. -/
def accLE (a b : Account) : Prop := idLe a.id b.id

instance : DecidableRel accLE := fun a b => inferInstanceAs (Decidable (idLe a.id b.id))

instance : IsTotal Account accLE := ⟨fun a b => le_total (idKey a.id) (idKey b.id)⟩

instance : IsTrans Account accLE := ⟨fun _ _ _ hab hbc => le_trans hab hbc⟩

/-- Ordering of payment rows by id, the `ORDER BY id` of `ListPayments`. -/
def payLE (a b : Payment) : Prop := a.id ≤ b.id

instance : DecidableRel payLE := fun a b => inferInstanceAs (Decidable (a.id ≤ b.id))

instance : IsTotal Payment payLE := ⟨fun a b => le_total a.id b.id⟩

instance : IsTrans Payment payLE := ⟨fun _ _ _ hab hbc => le_trans hab hbc⟩

/-- `SELECT id, balance, currency FROM accounts WHERE id = $1 OR id = $2
ORDER BY id FOR UPDATE`: the rows matching either id, in id order. -/
def accountsQuery (accounts : List Account) (id1 id2 : String) : List Account :=
  List.insertionSort accLE (accounts.filter (fun a => a.id = id1 ∨ a.id = id2))

/-- The sequence of row ids locked by the `FOR UPDATE` query of
`SendPayment`: the ids of the selected rows, in the order the query
returns (and hence locks) them. -/
def lockSequence (st : Store) (id1 id2 : String) : List String :=
  (accountsQuery st.accounts id1 id2).map (·.id)

/-- The Go map `accountsByID` built by inserting each fetched account in
order (last write wins), read back at key `k`: the last element of `l`
whose id is `k`. -/
def lookupLast (l : List Account) (k : String) : Option Account :=
  match l with
  | [] => none
  | a :: rest =>
    match lookupLast rest k with
    | some r => some r
    | none => if a.id = k then some a else none

/-- `UPDATE accounts SET balance = $1 WHERE id = $2`: set the balance of
every row whose id is `k`. -/
def updateBalance (l : List Account) (k : String) (b : ℚ) : List Account :=
  l.map (fun a => if a.id = k then { a with balance := b } else a)

/-- The write steps of `SendPayment`: the two `UPDATE`s (`tx.Exec` on the
source then the destination), the `INSERT` into `payments`, and
`tx.Commit`, each of which may fail. -/
def writePhase (o : StoreOracle) (st : Store) (fromAccount toAccount : Account)
    (amount : ℚ) : Except Err Store :=
  let newFromBalance := fromAccount.balance - amount
  let newToBalance := toAccount.balance + amount
  if !o.updateFromOk then .error (.storeErr "update failed")
  else
    let tx1 : Store :=
      { st with accounts := updateBalance st.accounts fromAccount.id newFromBalance }
    if !o.updateToOk then .error (.storeErr "update failed")
    else
      let tx2 : Store :=
        { tx1 with accounts := updateBalance tx1.accounts toAccount.id newToBalance }
      if !o.insertOk then .error (.storeErr "insert failed")
      else
        let tx3 : Store :=
          { tx2 with
            payments := tx2.payments ++
              [⟨tx2.nextPaymentID, fromAccount.id, toAccount.id, amount⟩],
            nextPaymentID := tx2.nextPaymentID + 1 }
        if !o.commitOk then .error (.storeErr "commit failed")
        else .ok tx3

/-- The transactional phase of `SendPayment` (lines 155-203 of
`service.go`): begin, locked fetch of the two accounts, the existence,
currency and balance checks, then the writes. -/
def transactPhase (o : StoreOracle) (st : Store) (fromAccountID toAccountID : String)
    (amount : ℚ) : Except Err Store :=
  if !o.beginOk then .error (.storeErr "begin failed")
  else if !o.queryOk then .error (.storeErr "query failed")
  else
    match lookupLast (accountsQuery st.accounts fromAccountID toAccountID) fromAccountID,
        lookupLast (accountsQuery st.accounts fromAccountID toAccountID) toAccountID with
    | some fromAccount, some toAccount =>
      if fromAccount.currency ≠ toAccount.currency then .error .currencyMismatch
      else if fromAccount.balance - amount < 0 then .error .insufficientBalance
      else writePhase o st fromAccount toAccount amount
    | _, _ => .error .accountNotFound

/-- `SendPayment` of `service.go`, as a function from the pre-state to
either the committed post-state or the error of the aborted call. -/
def sendPayment (o : StoreOracle) (st : Store) (fromAccountID toAccountID : String)
    (amount : ℚ) : Except Err Store :=
  if fromAccountID = "" ∨ toAccountID = "" then .error .accountNotSpecified
  else if fromAccountID = toAccountID then .error .sameAccount
  else if ¬ 0 < amount then .error .invalidAmount
  else transactPhase o st fromAccountID toAccountID amount

/-- The state observable after a `SendPayment` call together with the
returned error: a committed call publishes the transaction's writes, an
aborted one leaves the store as it was. -/
def runSendPayment (o : StoreOracle) (st : Store) (fromAccountID toAccountID : String)
    (amount : ℚ) : Store × Option Err :=
  match sendPayment o st fromAccountID toAccountID amount with
  | .ok st' => (st', none)
  | .error e => (st, some e)

/-- Iterated transfers: the observable store after running a sequence of
`SendPayment` calls, each given as an oracle plus the call arguments. -/
def runSequence (st : Store) (reqs : List (StoreOracle × String × String × ℚ)) : Store :=
  reqs.foldl (fun s r => (runSendPayment r.1 s r.2.1 r.2.2.1 r.2.2.2).1) st

/-- `ListPayments` of `service.go`: all payment rows, `ORDER BY id`. -/
def listPayments (st : Store) : List Payment :=
  List.insertionSort payLE st.payments

/-- The `paymentItem` struct of `endpoints.go`.  The JSON encoding omits
`fromAccount` / `toAccount` when they hold the zero value `""`
(`omitempty`), so `""` here means the field is absent from the response. -/
structure PaymentItem where
  account : String
  amount : ℚ
  fromAccount : String
  toAccount : String
  direction : String
deriving DecidableEq, Repr

/-- The outgoing entry `makeListPaymentsEndpoint` appends for one payment
record, attributed to the source account; `fromAccount` keeps the zero
value `""` and is therefore omitted from the JSON. -/
def outgoingItem (p : Payment) : PaymentItem :=
  { account := p.fromAccountID, amount := p.amount, fromAccount := "",
    toAccount := p.toAccountID, direction := "outgoing" }

/-- The incoming entry `makeListPaymentsEndpoint` appends for one payment
record, attributed to the destination account; `toAccount` keeps the zero
value `""` and is therefore omitted from the JSON. -/
def incomingItem (p : Payment) : PaymentItem :=
  { account := p.toAccountID, amount := p.amount, fromAccount := p.fromAccountID,
    toAccount := "", direction := "incoming" }

/-- The two entries `makeListPaymentsEndpoint` appends for one payment
record: the outgoing entry for the source, then the incoming entry for
the destination. -/
def paymentItemsOf (p : Payment) : List PaymentItem :=
  [outgoingItem p, incomingItem p]

/-- The payments view assembled by `makeListPaymentsEndpoint`: for each
record of `ListPayments`, in order, its outgoing and incoming entries. -/
def listPaymentItems (st : Store) : List PaymentItem :=
  (listPayments st).flatMap paymentItemsOf

/-- `codeFrom` of the HTTP transport: the status code of each error. -/
def codeFrom (e : Err) : ℕ :=
  match e with
  | .currencyMismatch | .insufficientBalance | .invalidAmount | .sameAccount => 403
  | .accountNotFound => 404
  | .malformedJSON | .accountNotSpecified => 400
  | .storeErr _ => 500

/-- `err.Error()`: the message carried by each error value. -/
def errMessage (e : Err) : String :=
  match e with
  | .accountNotFound => "account(s) not found"
  | .accountNotSpecified => "two accounts must be specified"
  | .currencyMismatch => "accounts have different currencies"
  | .insufficientBalance => "insufficient balance"
  | .invalidAmount => "invalid amount"
  | .sameAccount => "cannot send a payment to the same account"
  | .malformedJSON => "unable to parse request"
  | .storeErr m => m

/-- `encodeError` of the HTTP transport: the status code and the message
written to the response body. -/
def encodeError (e : Err) : ℕ × String :=
  let code := codeFrom e
  (code, if code = 500 then "internal server error" else errMessage e)

/-- All balances in the store are non-negative. -/
def AllNonneg (st : Store) : Prop := ∀ a ∈ st.accounts, 0 ≤ a.balance

/-- The account ids are pairwise distinct — the `PRIMARY KEY(id)`
constraint of the `accounts` table in `init-db.sh`. -/
def UniqueIds (l : List Account) : Prop := (l.map (·.id)).Nodup

/-- The balance the store holds for account `k`, if the account exists. -/
def balanceOf (st : Store) (k : String) : Option ℚ :=
  (lookupLast st.accounts k).map (·.balance)

/-- The store committed by a successful transfer: both balance writes and
the appended payment record. -/
def committedStore (st : Store) (fromAccount toAccount : Account) (amt : ℚ) : Store :=
  { accounts := updateBalance (updateBalance st.accounts fromAccount.id
      (fromAccount.balance - amt)) toAccount.id (toAccount.balance + amt),
    payments := st.payments ++ [⟨st.nextPaymentID, fromAccount.id, toAccount.id, amt⟩],
    nextPaymentID := st.nextPaymentID + 1 }

-- Scenario tests from the spec, checked by evaluation.
set_option maxRecDepth 100000
/-- The three provisioned test accounts of `init-db.sh`. -/
def initialStore : Store :=
  { accounts :=
      [⟨"bob123", 100, "USD"⟩, ⟨"alice456", 1/100, "USD"⟩, ⟨"eve789", 50, "RUB"⟩],
    payments := [],
    nextPaymentID := 1 }

/-- A small store with two same-currency accounts, used in witnesses. -/
def twoAccountStore : Store :=
  { accounts := [⟨"a", 5, "USD"⟩, ⟨"b", 1, "USD"⟩], payments := [], nextPaymentID := 1 }

/-- A store whose `accounts` table violates the primary-key constraint
(two rows with the same id), used to exercise general lemmas that do not
assume unique ids. -/
def dupStore : Store :=
  { accounts := [⟨"a", 0, "USD"⟩, ⟨"a", 0, "USD"⟩], payments := [], nextPaymentID := 1 }

/-- The store after `SendPayment(a, b, 1)` on `twoAccountStore`. -/
def afterStore : Store :=
  { accounts := [⟨"a", 4, "USD"⟩, ⟨"b", 2, "USD"⟩],
    payments := [⟨1, "a", "b", 1⟩], nextPaymentID := 2 }

/-- A store with one committed payment record, used in witnesses. -/
def payStore : Store :=
  { accounts := [], payments := [⟨1, "x", "y", 2⟩], nextPaymentID := 2 }

example :
    (runSendPayment .allOk initialStore "bob123" "alice456" 10).1.accounts =
      [⟨"bob123", 90, "USD"⟩, ⟨"alice456", 1001/100, "USD"⟩, ⟨"eve789", 50, "RUB"⟩] := by
  with_unfolding_all decide

example :
    runSendPayment .allOk initialStore "alice456" "eve789" 1 =
      (initialStore, some .currencyMismatch) := by
  with_unfolding_all decide

example :
    runSendPayment .allOk initialStore "alice456" "bob123" 100 =
      (initialStore, some .insufficientBalance) := by
  with_unfolding_all decide

example :
    runSendPayment .allOk initialStore "bob123" "bob123" 1 =
      (initialStore, some .sameAccount) := by
  with_unfolding_all decide

example :
    runSendPayment .allOk initialStore "testid1" "testid2" 1 =
      (initialStore, some .accountNotFound) := by
  with_unfolding_all decide

/-! ## Helper lemmas -/

lemma lookupLast_id {l : List Account} {k : String} {a : Account}
    (h : lookupLast l k = some a) : a.id = k := by
  induction l with
  | nil => simp [lookupLast] at h
  | cons b rest ih =>
    rw [lookupLast] at h
    cases hr : lookupLast rest k with
    | some r => rw [hr] at h; exact ih (hr.trans h)
    | none =>
      rw [hr] at h
      by_cases hb : b.id = k
      · simp [hb] at h; rw [← h]; exact hb
      · simp [hb] at h

lemma lookupLast_mem {l : List Account} {k : String} {a : Account}
    (h : lookupLast l k = some a) : a ∈ l := by
  induction l with
  | nil => simp [lookupLast] at h
  | cons b rest ih =>
    rw [lookupLast] at h
    cases hr : lookupLast rest k with
    | some r => rw [hr] at h; exact List.mem_cons_of_mem _ (ih (hr.trans h))
    | none =>
      rw [hr] at h
      by_cases hb : b.id = k
      · simp [hb] at h; rw [← h]; exact List.mem_cons_self _ _
      · simp [hb] at h

lemma lookupLast_eq_none {l : List Account} {k : String} :
    lookupLast l k = none ↔ ∀ a ∈ l, a.id ≠ k := by
  induction l with
  | nil => simp [lookupLast]
  | cons b rest ih =>
    rw [lookupLast]
    cases hr : lookupLast rest k with
    | some r =>
      simp only [reduceCtorEq, false_iff]
      intro hall
      exact hall r (List.mem_cons_of_mem _ (lookupLast_mem hr)) (lookupLast_id hr)
    | none =>
      by_cases hb : b.id = k
      · simp [hb]
      · simp only [hb, if_neg hb, List.mem_cons]
        constructor
        · intro _ a ha
          rcases ha with rfl | ha
          · exact hb
          · exact (ih.mp hr) a ha
        · intro _; rfl

lemma lookupLast_of_mem {l : List Account} {k : String} {a : Account}
    (hu : UniqueIds l) (ha : a ∈ l) (hk : a.id = k) : lookupLast l k = some a := by
  induction l with
  | nil => simp at ha
  | cons b rest ih =>
    rw [UniqueIds, List.map_cons, List.nodup_cons] at hu
    rw [lookupLast]
    rcases List.mem_cons.mp ha with rfl | ha
    · have hnone : lookupLast rest k = none := by
        rw [lookupLast_eq_none]
        intro x hx hxk
        have hmem : x.id ∈ List.map (fun x => x.id) rest := List.mem_map_of_mem _ hx
        rw [hxk, ← hk] at hmem
        exact hu.1 hmem
      rw [hnone, if_pos hk]
    · rw [ih hu.2 ha]

lemma uniqueIds_sublist {l l' : List Account} (hs : List.Sublist l' l) (hu : UniqueIds l) :
    UniqueIds l' := (hu.sublist (hs.map _))

lemma uniqueIds_perm {l l' : List Account} (hp : List.Perm l l') (hu : UniqueIds l) :
    UniqueIds l' := ((hp.map _).nodup_iff).mp hu

lemma accountsQuery_perm (l : List Account) (i j : String) :
    List.Perm (accountsQuery l i j) (l.filter (fun a => a.id = i ∨ a.id = j)) :=
  List.perm_insertionSort _ _

lemma mem_accountsQuery {l : List Account} {i j : String} {a : Account} :
    a ∈ accountsQuery l i j ↔ a ∈ l ∧ (a.id = i ∨ a.id = j) := by
  rw [(accountsQuery_perm l i j).mem_iff, List.mem_filter]
  simp

lemma uniqueIds_accountsQuery {l : List Account} (i j : String) (hu : UniqueIds l) :
    UniqueIds (accountsQuery l i j) :=
  uniqueIds_perm (accountsQuery_perm l i j).symm (uniqueIds_sublist (List.filter_sublist l) hu)

lemma lookupLast_accountsQuery {l : List Account} {i j k : String}
    (hu : UniqueIds l) (hk : k = i ∨ k = j) :
    lookupLast (accountsQuery l i j) k = lookupLast l k := by
  cases hl : lookupLast l k with
  | some a =>
    exact lookupLast_of_mem (uniqueIds_accountsQuery i j hu)
      (mem_accountsQuery.mpr ⟨lookupLast_mem hl, by
        rcases hk with rfl | rfl
        · exact Or.inl (lookupLast_id hl)
        · exact Or.inr (lookupLast_id hl)⟩)
      (lookupLast_id hl)
  | none =>
    rw [lookupLast_eq_none] at hl ⊢
    intro a ha
    exact hl a (mem_accountsQuery.mp ha).1

lemma lookupLast_updateBalance_self (l : List Account) (k : String) (b : ℚ) :
    lookupLast (updateBalance l k b) k =
      (lookupLast l k).map (fun a => { a with balance := b }) := by
  induction l with
  | nil => simp [lookupLast, updateBalance]
  | cons c rest ih =>
    rw [updateBalance, List.map_cons, lookupLast, ← updateBalance, ih, lookupLast]
    cases hr : lookupLast rest k with
    | some r => simp
    | none =>
      by_cases hc : c.id = k
      · simp [hc]
      · simp [hc]

lemma lookupLast_updateBalance_ne (l : List Account) {k k' : String} (b : ℚ)
    (hne : k' ≠ k) :
    lookupLast (updateBalance l k b) k' = lookupLast l k' := by
  induction l with
  | nil => simp [lookupLast, updateBalance]
  | cons c rest ih =>
    rw [updateBalance, List.map_cons, lookupLast, ← updateBalance, ih, lookupLast]
    cases hr : lookupLast rest k' with
    | some r => simp
    | none =>
      by_cases hc : c.id = k
      · have hkk : k ≠ k' := fun h => hne h.symm
        simp [hc, hkk]
      · simp [hc]

lemma writePhase_ok_inv {o : StoreOracle} {st : Store} {fA tA : Account} {amt : ℚ}
    {st' : Store} (h : writePhase o st fA tA amt = .ok st') :
    o.updateFromOk = true ∧ o.updateToOk = true ∧ o.insertOk = true ∧
    o.commitOk = true ∧ st' = committedStore st fA tA amt := by
  unfold writePhase at h
  split at h
  · simp at h
  split at h
  · simp at h
  split at h
  · simp at h
  split at h
  · simp at h
  rename_i h1 h2 h3 h4
  simp only [Bool.not_eq_true, Bool.not_eq_false'] at h1 h2 h3 h4
  simp only [Except.ok.injEq] at h
  exact ⟨h1, h2, h3, h4, h.symm⟩

lemma transactPhase_ok_inv {o : StoreOracle} {st : Store} {f t : String} {amt : ℚ}
    {st' : Store} (h : transactPhase o st f t amt = .ok st') :
    ∃ fromAccount toAccount,
      lookupLast (accountsQuery st.accounts f t) f = some fromAccount ∧
      lookupLast (accountsQuery st.accounts f t) t = some toAccount ∧
      fromAccount.currency = toAccount.currency ∧
      ¬ fromAccount.balance - amt < 0 ∧
      o.beginOk = true ∧ o.queryOk = true ∧
      writePhase o st fromAccount toAccount amt = .ok st' := by
  unfold transactPhase at h
  split at h
  · simp at h
  split at h
  · simp at h
  rename_i h1 h2
  simp only [Bool.not_eq_true, Bool.not_eq_false'] at h1 h2
  split at h
  case _ fromAccount toAccount hf ht =>
    split at h
    · simp at h
    rename_i h3
    rw [not_not] at h3
    split at h
    · simp at h
    rename_i h4
    exact ⟨fromAccount, toAccount, hf, ht, h3, h4, h1, h2, h⟩
  case _ =>
    simp at h

lemma sendPayment_ok_inv {o : StoreOracle} {st : Store} {f t : String} {amt : ℚ}
    {st' : Store} (h : sendPayment o st f t amt = .ok st') :
    ∃ fromAccount toAccount,
      lookupLast (accountsQuery st.accounts f t) f = some fromAccount ∧
      lookupLast (accountsQuery st.accounts f t) t = some toAccount ∧
      f ≠ "" ∧ t ≠ "" ∧ f ≠ t ∧ 0 < amt ∧
      fromAccount.currency = toAccount.currency ∧
      ¬ fromAccount.balance - amt < 0 ∧
      o.beginOk = true ∧ o.queryOk = true ∧ o.updateFromOk = true ∧
      o.updateToOk = true ∧ o.insertOk = true ∧ o.commitOk = true ∧
      st' = committedStore st fromAccount toAccount amt := by
  unfold sendPayment at h
  split at h
  · simp at h
  split at h
  · simp at h
  split at h
  · simp at h
  rename_i h1 h2 h3
  push_neg at h1
  rw [not_not] at h3
  obtain ⟨fA, tA, hf, ht, hcur, hbal, hb, hq, hw⟩ := transactPhase_ok_inv h
  obtain ⟨hw1, hw2, hw3, hw4, hst⟩ := writePhase_ok_inv hw
  exact ⟨fA, tA, hf, ht, h1.1, h1.2, h2, h3, hcur, hbal, hb, hq, hw1, hw2, hw3, hw4, hst⟩

lemma updateBalance_map_id (l : List Account) (k : String) (b : ℚ) :
    (updateBalance l k b).map (·.id) = l.map (·.id) := by
  rw [updateBalance, List.map_map]
  apply List.map_congr_left
  intro a _
  by_cases h : a.id = k <;> simp [h]

lemma updateBalance_map_currency (l : List Account) (k : String) (b : ℚ) :
    (updateBalance l k b).map (·.currency) = l.map (·.currency) := by
  rw [updateBalance, List.map_map]
  apply List.map_congr_left
  intro a _
  by_cases h : a.id = k <;> simp [h]

lemma updateBalance_getElem (l : List Account) (k : String) (b : ℚ) (i : ℕ) :
    (updateBalance l k b)[i]? =
      (l[i]?).map (fun a => if a.id = k then { a with balance := b } else a) := by
  rw [updateBalance, List.getElem?_map]

lemma mem_updateBalance {l : List Account} {k : String} {b : ℚ} {a : Account}
    (h : a ∈ updateBalance l k b) :
    ∃ c ∈ l, a = if c.id = k then { c with balance := b } else c := by
  rw [updateBalance] at h
  obtain ⟨c, hc, rfl⟩ := List.mem_map.mp h
  exact ⟨c, hc, rfl⟩

lemma charToNat_inj {c d : Char} (h : c.toNat = d.toNat) : c = d := by
  have := congrArg Char.ofNat h
  rwa [Char.ofNat_toNat, Char.ofNat_toNat] at this

lemma idKey_inj {s u : String} (h : idKey s = idKey u) : s = u := by
  rw [idKey, idKey] at h
  have hdata : s.data = u.data :=
    (List.map_injective_iff.mpr fun _ _ hcd => charToNat_inj hcd) h
  cases s; cases u
  exact congrArg String.mk hdata

lemma idLe_antisymm {s u : String} (h1 : idLe s u) (h2 : idLe u s) : s = u :=
  idKey_inj (le_antisymm h1 h2)

lemma flatMap_paymentItems_length (l : List Payment) :
    (l.flatMap paymentItemsOf).length = 2 * l.length := by
  induction l with
  | nil => simp
  | cons p ps ih =>
    rw [List.flatMap_cons, List.length_append, ih]
    simp [paymentItemsOf]
    ring

lemma flatMap_paymentItems_getElem (l : List Payment) (i : ℕ) (p : Payment)
    (h : l[i]? = some p) :
    (l.flatMap paymentItemsOf)[2 * i]? = some (outgoingItem p) ∧
    (l.flatMap paymentItemsOf)[2 * i + 1]? = some (incomingItem p) := by
  induction l generalizing i with
  | nil => simp at h
  | cons q ps ih =>
    cases i with
    | zero =>
      rw [List.getElem?_cons_zero] at h
      injection h with h
      subst h
      constructor <;> simp [paymentItemsOf, List.flatMap_cons]
    | succ i =>
      rw [List.getElem?_cons_succ] at h
      have h2 : 2 * (i + 1) = 2 * i + 1 + 1 := by ring
      rw [List.flatMap_cons, h2]
      have hfrom := ih i h
      simp only [paymentItemsOf, List.cons_append, List.nil_append, List.getElem?_cons_succ]
      exact ⟨hfrom.1, hfrom.2⟩

lemma runSendPayment_error {o : StoreOracle} {st : Store} {f t : String} {amt : ℚ}
    {e : Err} (hs : sendPayment o st f t amt = .error e) :
    runSendPayment o st f t amt = (st, some e) := by
  unfold runSendPayment
  rw [hs]

lemma runSendPayment_ok {o : StoreOracle} {st : Store} {f t : String} {amt : ℚ}
    {st' : Store} (hs : sendPayment o st f t amt = .ok st') :
    runSendPayment o st f t amt = (st', none) := by
  unfold runSendPayment
  rw [hs]

lemma runSendPayment_ok_inv {o : StoreOracle} {st : Store} {f t : String} {amt : ℚ}
    {st' : Store} (h : runSendPayment o st f t amt = (st', none)) :
    sendPayment o st f t amt = .ok st' := by
  unfold runSendPayment at h
  cases hs : sendPayment o st f t amt with
  | error e => rw [hs] at h; simp at h
  | ok s =>
    rw [hs] at h
    simp only [Prod.mk.injEq] at h
    rw [h.1]

lemma sendPayment_validation_pass {o : StoreOracle} {st : Store} {f t : String}
    {amt : ℚ} (hf : f ≠ "") (ht : t ≠ "") (hne : f ≠ t) (hpos : 0 < amt) :
    sendPayment o st f t amt = transactPhase o st f t amt := by
  rw [sendPayment, if_neg (by simp [hf, ht]), if_neg hne, if_neg (not_not_intro hpos)]

lemma transactPhase_notFound {o : StoreOracle} {st : Store} {f t : String} {amt : ℚ}
    (hb : o.beginOk = true) (hq : o.queryOk = true)
    (hnone : lookupLast (accountsQuery st.accounts f t) f = none ∨
      lookupLast (accountsQuery st.accounts f t) t = none) :
    transactPhase o st f t amt = .error .accountNotFound := by
  rw [transactPhase, if_neg (by simp [hb]), if_neg (by simp [hq])]
  rcases hnone with h | h
  · rw [h]
  · cases h1 : lookupLast (accountsQuery st.accounts f t) f with
    | none => rfl
    | some fA => rw [h]

lemma transactPhase_found {o : StoreOracle} {st : Store} {f t : String} {amt : ℚ}
    {fA tA : Account} (hb : o.beginOk = true) (hq : o.queryOk = true)
    (hfA : lookupLast (accountsQuery st.accounts f t) f = some fA)
    (htA : lookupLast (accountsQuery st.accounts f t) t = some tA) :
    transactPhase o st f t amt =
      if fA.currency ≠ tA.currency then .error .currencyMismatch
      else if fA.balance - amt < 0 then .error .insufficientBalance
      else writePhase o st fA tA amt := by
  rw [transactPhase, if_neg (by simp [hb]), if_neg (by simp [hq]), hfA, htA]

/-! ## Claim theorems -/

/-- C8: the error-to-HTTP mapping is total over the error taxonomy:
`ErrMalformedJSON` and `ErrAccountNotSpecified` map to 400; `ErrSameAccount`,
`ErrInvalidAmount`, `ErrCurrencyMismatch` and `ErrInsufficientBalance` map
to 403; `ErrAccountNotFound` maps to 404; every other error maps to 500
with the response message replaced by the generic text
"internal server error", while non-500 responses carry the error's own
message. -/
theorem codeFrom_encodeError_total :
    codeFrom .malformedJSON = 400 ∧ codeFrom .accountNotSpecified = 400 ∧
    codeFrom .sameAccount = 403 ∧ codeFrom .invalidAmount = 403 ∧
    codeFrom .currencyMismatch = 403 ∧ codeFrom .insufficientBalance = 403 ∧
    codeFrom .accountNotFound = 404 ∧
    (∀ m, codeFrom (.storeErr m) = 500 ∧
      encodeError (.storeErr m) = (500, "internal server error")) ∧
    (∀ e, codeFrom e = 400 ∨ codeFrom e = 403 ∨ codeFrom e = 404 ∨ codeFrom e = 500) ∧
    encodeError .malformedJSON = (400, errMessage .malformedJSON) ∧
    encodeError .accountNotSpecified = (400, errMessage .accountNotSpecified) ∧
    encodeError .sameAccount = (403, errMessage .sameAccount) ∧
    encodeError .invalidAmount = (403, errMessage .invalidAmount) ∧
    encodeError .currencyMismatch = (403, errMessage .currencyMismatch) ∧
    encodeError .insufficientBalance = (403, errMessage .insufficientBalance) ∧
    encodeError .accountNotFound = (404, errMessage .accountNotFound) := by
  refine ⟨rfl, rfl, rfl, rfl, rfl, rfl, rfl, fun m => ⟨rfl, rfl⟩, fun e => ?_,
    rfl, rfl, rfl, rfl, rfl, rfl, rfl⟩
  cases e <;> simp [codeFrom]

/-- C4: `SendPayment` checks its preconditions in a fixed order before any
store interaction; the first failing check determines the error with no
side effects.  Empty ids (even both empty, hence equal) give
`ErrAccountNotSpecified`; equal non-empty ids give `ErrSameAccount`;
a non-positive amount gives `ErrInvalidAmount`.  The result is the same
for every store and every oracle — including oracles whose `Begin` fails —
so no unit of work is started and no lock is acquired, and the store is
returned unchanged. -/
theorem sendPayment_precondition_order (o : StoreOracle) (st : Store)
    (f t : String) (amt : ℚ) :
    (f = "" ∨ t = "" → runSendPayment o st f t amt = (st, some .accountNotSpecified)) ∧
    (f ≠ "" → t ≠ "" → f = t → runSendPayment o st f t amt = (st, some .sameAccount)) ∧
    (f ≠ "" → t ≠ "" → f ≠ t → ¬ 0 < amt →
      runSendPayment o st f t amt = (st, some .invalidAmount)) := by
  refine ⟨fun h1 => ?_, fun hf ht h2 => ?_, fun hf ht hne h3 => ?_⟩
  · exact runSendPayment_error (by rw [sendPayment, if_pos h1])
  · exact runSendPayment_error
      (by rw [sendPayment, if_neg (by simp [hf, ht]), if_pos h2])
  · exact runSendPayment_error
      (by rw [sendPayment, if_neg (by simp [hf, ht]), if_neg hne, if_pos h3])

/-- Witness for C4: the three precondition failures at concrete inputs,
each with a `Begin`-refusing oracle, still return the validation error and
leave the store unchanged. -/
theorem sendPayment_precondition_order_witness :
    runSendPayment ⟨false, false, false, false, false, false⟩ initialStore "" "" 1 =
      (initialStore, some .accountNotSpecified) ∧
    runSendPayment ⟨false, false, false, false, false, false⟩ initialStore "x" "x" 1 =
      (initialStore, some .sameAccount) ∧
    runSendPayment ⟨false, false, false, false, false, false⟩ initialStore "x" "y" 0 =
      (initialStore, some .invalidAmount) :=
  ⟨(sendPayment_precondition_order _ _ "" "" 1).1 (Or.inl rfl),
   (sendPayment_precondition_order _ _ "x" "x" 1).2.1 (by decide) (by decide) rfl,
   (sendPayment_precondition_order _ _ "x" "y" 0).2.2 (by decide) (by decide)
     (by decide) (by decide)⟩

/-- C2: atomicity under failure — a `SendPayment` call that returns any
error (validation failure, missing account, currency mismatch,
insufficient balance, or any injected store failure) leaves the whole
observable store, accounts and payment records alike, exactly as it was;
and a call only returns success when every store write, including the
final commit, succeeded. -/
theorem sendPayment_atomicity (o : StoreOracle) (st : Store) (f t : String) (amt : ℚ) :
    (∀ e, (runSendPayment o st f t amt).2 = some e →
      (runSendPayment o st f t amt).1 = st) ∧
    ((runSendPayment o st f t amt).2 = none →
      o.beginOk = true ∧ o.queryOk = true ∧ o.updateFromOk = true ∧
      o.updateToOk = true ∧ o.insertOk = true ∧ o.commitOk = true) := by
  constructor
  · intro e he
    cases hs : sendPayment o st f t amt with
    | error e2 => rw [runSendPayment_error hs]
    | ok s => rw [runSendPayment_ok hs] at he; simp at he
  · intro hn
    cases hs : sendPayment o st f t amt with
    | error e2 => rw [runSendPayment_error hs] at hn; simp at hn
    | ok s =>
      obtain ⟨_, _, _, _, _, _, _, _, _, _, hb, hq, h1, h2, h3, h4, _⟩ :=
        sendPayment_ok_inv hs
      exact ⟨hb, hq, h1, h2, h3, h4⟩

/-- Witness for C2: a transfer whose commit fails is rolled back — the
observable store is the pre-state — and a fully successful call implies
every store operation of its unit of work succeeded. -/
theorem sendPayment_atomicity_witness :
    (runSendPayment ⟨true, true, true, true, true, false⟩ twoAccountStore "a" "b" 1).1 =
      twoAccountStore ∧
    StoreOracle.allOk.commitOk = true :=
  ⟨(sendPayment_atomicity ⟨true, true, true, true, true, false⟩ twoAccountStore "a" "b" 1).1
      (.storeErr "commit failed") (by with_unfolding_all decide),
   ((sendPayment_atomicity .allOk twoAccountStore "a" "b" 1).2
      (by with_unfolding_all decide)).2.2.2.2.2⟩

/-- C1: conservation — a successful `SendPayment(f, t, amount)` decreases
the source balance by exactly `amount` and increases the destination
balance by exactly `amount`, in exact (rational, hence exact-decimal)
arithmetic, so `sourceAfter + amount = sourceBefore`,
`destAfter - amount = destBefore`, and the sum of the two balances is
unchanged.  `UniqueIds` is the `PRIMARY KEY(id)` constraint of the
`accounts` table. -/
theorem sendPayment_conservation {o : StoreOracle} {st : Store} {f t : String}
    {amt : ℚ} {st' : Store} (hu : UniqueIds st.accounts)
    (h : runSendPayment o st f t amt = (st', none)) :
    ∃ bf bt, balanceOf st f = some bf ∧ balanceOf st t = some bt ∧
      balanceOf st' f = some (bf - amt) ∧ balanceOf st' t = some (bt + amt) ∧
      (bf - amt) + amt = bf ∧ (bt + amt) - amt = bt ∧
      (bf - amt) + (bt + amt) = bf + bt := by
  obtain ⟨fA, tA, hfA, htA, hf, ht, hne, hpos, hcur, hbal, _, _, _, _, _, _, hst⟩ :=
    sendPayment_ok_inv (runSendPayment_ok_inv h)
  have hlf : lookupLast st.accounts f = some fA := by
    rw [← lookupLast_accountsQuery (l := st.accounts) (i := f) (j := t) hu (Or.inl rfl)]
    exact hfA
  have hlt : lookupLast st.accounts t = some tA := by
    rw [← lookupLast_accountsQuery (l := st.accounts) (i := f) (j := t) hu (Or.inr rfl)]
    exact htA
  have hfid : fA.id = f := lookupLast_id hfA
  have htid : tA.id = t := lookupLast_id htA
  refine ⟨fA.balance, tA.balance, ?_, ?_, ?_, ?_, by ring, by ring, by ring⟩
  · rw [balanceOf, hlf]; rfl
  · rw [balanceOf, hlt]; rfl
  · rw [hst]
    simp only [balanceOf, committedStore, hfid, htid]
    rw [lookupLast_updateBalance_ne _ _ hne, lookupLast_updateBalance_self, hlf]
    rfl
  · rw [hst]
    simp only [balanceOf, committedStore, hfid, htid]
    rw [lookupLast_updateBalance_self, lookupLast_updateBalance_ne _ _ (Ne.symm hne), hlt]
    rfl

/-- Witness for C1: the transfer of 1 USD from `a` (balance 5) to `b`
(balance 1) in `twoAccountStore` conserves the total. -/
theorem sendPayment_conservation_witness :
    ∃ bf bt, balanceOf twoAccountStore "a" = some bf ∧
      balanceOf twoAccountStore "b" = some bt ∧
      balanceOf afterStore "a" = some (bf - 1) ∧
      balanceOf afterStore "b" = some (bt + 1) ∧
      (bf - 1) + 1 = bf ∧ (bt + 1) - 1 = bt ∧ (bf - 1) + (bt + 1) = bf + bt :=
  @sendPayment_conservation .allOk twoAccountStore "a" "b" 1 afterStore
    (by rw [UniqueIds]; decide) (by with_unfolding_all decide)

/-- C9: frame — a successful `SendPayment` never changes any account's id
or currency, leaves every account not involved in the call untouched (in
place), and appends exactly one payment record, leaving all pre-existing
records unchanged. -/
theorem sendPayment_frame {o : StoreOracle} {st : Store} {f t : String}
    {amt : ℚ} {st' : Store} (h : runSendPayment o st f t amt = (st', none)) :
    st'.accounts.map (·.id) = st.accounts.map (·.id) ∧
    st'.accounts.map (·.currency) = st.accounts.map (·.currency) ∧
    (∀ (i : ℕ) (a : Account), st.accounts[i]? = some a → a.id ≠ f → a.id ≠ t →
      st'.accounts[i]? = some a) ∧
    st'.payments = st.payments ++ [⟨st.nextPaymentID, f, t, amt⟩] := by
  obtain ⟨fA, tA, hfA, htA, _, _, _, _, _, _, _, _, _, _, _, _, hst⟩ :=
    sendPayment_ok_inv (runSendPayment_ok_inv h)
  have hfid : fA.id = f := lookupLast_id hfA
  have htid : tA.id = t := lookupLast_id htA
  subst hst
  refine ⟨?_, ?_, ?_, ?_⟩
  · simp only [committedStore]
    rw [updateBalance_map_id, updateBalance_map_id]
  · simp only [committedStore]
    rw [updateBalance_map_currency, updateBalance_map_currency]
  · intro i a ha haf hat
    simp only [committedStore]
    rw [updateBalance_getElem, updateBalance_getElem, ha]
    simp [hfid, htid, haf, hat]
  · simp only [committedStore, hfid, htid]

/-- Witness for C9: the successful transfer in `twoAccountStore` keeps
ids and currencies, and appends exactly one record. -/
theorem sendPayment_frame_witness :
    afterStore.accounts.map (·.id) = twoAccountStore.accounts.map (·.id) ∧
    afterStore.accounts.map (·.currency) = twoAccountStore.accounts.map (·.currency) ∧
    (∀ (i : ℕ) (a : Account), twoAccountStore.accounts[i]? = some a →
      a.id ≠ "a" → a.id ≠ "b" → afterStore.accounts[i]? = some a) ∧
    afterStore.payments = twoAccountStore.payments ++ [⟨1, "a", "b", 1⟩] :=
  @sendPayment_frame .allOk twoAccountStore "a" "b" 1 afterStore
    (by with_unfolding_all decide)

lemma step_nonneg {o : StoreOracle} {st : Store} {f t : String} {amt : ℚ}
    (h : AllNonneg st) : AllNonneg (runSendPayment o st f t amt).1 := by
  cases hs : sendPayment o st f t amt with
  | error e => rw [runSendPayment_error hs]; exact h
  | ok s =>
    rw [runSendPayment_ok hs]
    obtain ⟨fA, tA, hfA, htA, _, _, _, hpos, _, hbal, _, _, _, _, _, _, hst⟩ :=
      sendPayment_ok_inv hs
    subst hst
    intro a ha
    simp only [committedStore] at ha
    obtain ⟨c, hc, hc2⟩ := mem_updateBalance ha
    obtain ⟨d, hd, hd2⟩ := mem_updateBalance hc
    have htAmem : tA ∈ st.accounts := (mem_accountsQuery.mp (lookupLast_mem htA)).1
    have h0t : 0 ≤ tA.balance + amt :=
      add_nonneg (h tA htAmem) (le_of_lt hpos)
    have h0f : 0 ≤ fA.balance - amt := not_lt.mp hbal
    by_cases hct : c.id = tA.id
    · rw [hc2, if_pos hct]
      exact h0t
    · rw [hc2, if_neg hct]
      by_cases hdf : d.id = fA.id
      · rw [hd2, if_pos hdf]
        exact h0f
      · rw [hd2, if_neg hdf]
        exact h d hd

/-- C3: no negative balance — starting from a store in which every
balance is non-negative, after any sequence of `SendPayment` calls
(successful or failed, with any injected store failures) every balance is
still non-negative at every observable point, i.e. after every prefix of
the sequence. -/
theorem sendPayment_nonneg_invariant (st : Store)
    (reqs : List (StoreOracle × String × String × ℚ)) (h : AllNonneg st) :
    ∀ n, AllNonneg (runSequence st (reqs.take n)) := by
  induction reqs generalizing st with
  | nil =>
    intro n
    simpa [runSequence] using h
  | cons r rs ih =>
    intro n
    cases n with
    | zero => simpa [runSequence] using h
    | succ n =>
      rw [List.take_succ_cons]
      exact ih _ (step_nonneg h) n

/-- Witness for C3: the spec's happy-path transfer, run from the
provisioned store, keeps all balances non-negative. -/
theorem sendPayment_nonneg_invariant_witness :
    AllNonneg (runSequence initialStore
      ([(StoreOracle.allOk, "bob123", "alice456", 10)].take 1)) :=
  sendPayment_nonneg_invariant initialStore
    [(StoreOracle.allOk, "bob123", "alice456", 10)]
    (by intro a ha; fin_cases ha <;> norm_num) 1

/-- C5: in the transactional phase (after the three validation checks
pass and the unit of work is under way), the checks happen in a fixed
order: a missing account fails with `ErrAccountNotFound`; then a currency
mismatch fails with `ErrCurrencyMismatch` regardless of the balances; and
only then is the balance checked, failing with `ErrInsufficientBalance` —
so when both a currency mismatch and an insufficient balance apply,
`CurrencyMismatch` is the reported error.  Each failure aborts: the
observable store is unchanged. -/
theorem sendPayment_transactional_order (o : StoreOracle) (st : Store)
    (f t : String) (amt : ℚ) (hf : f ≠ "") (ht : t ≠ "") (hne : f ≠ t)
    (hpos : 0 < amt) (hb : o.beginOk = true) (hq : o.queryOk = true) :
    ((lookupLast (accountsQuery st.accounts f t) f = none ∨
      lookupLast (accountsQuery st.accounts f t) t = none) →
      runSendPayment o st f t amt = (st, some .accountNotFound)) ∧
    (∀ fA tA, lookupLast (accountsQuery st.accounts f t) f = some fA →
      lookupLast (accountsQuery st.accounts f t) t = some tA →
      fA.currency ≠ tA.currency →
      runSendPayment o st f t amt = (st, some .currencyMismatch)) ∧
    (∀ fA tA, lookupLast (accountsQuery st.accounts f t) f = some fA →
      lookupLast (accountsQuery st.accounts f t) t = some tA →
      fA.currency = tA.currency → fA.balance - amt < 0 →
      runSendPayment o st f t amt = (st, some .insufficientBalance)) := by
  refine ⟨fun hnone => ?_, fun fA tA hfA htA hcur => ?_, fun fA tA hfA htA hcur hbal => ?_⟩
  · exact runSendPayment_error ((sendPayment_validation_pass hf ht hne hpos).trans
      (transactPhase_notFound hb hq hnone))
  · exact runSendPayment_error ((sendPayment_validation_pass hf ht hne hpos).trans
      (by rw [transactPhase_found hb hq hfA htA, if_pos hcur]))
  · exact runSendPayment_error ((sendPayment_validation_pass hf ht hne hpos).trans
      (by rw [transactPhase_found hb hq hfA htA, if_neg (not_not_intro hcur),
        if_pos hbal]))

/-- Witness for C5: on the provisioned store, unknown accounts give
`AccountNotFound`; `alice456` (USD, balance 0.01) to `eve789` (RUB) with
amount 1 gives `CurrencyMismatch` even though the balance is also
insufficient; `alice456` to `bob123` with amount 100 gives
`InsufficientBalance`. -/
theorem sendPayment_transactional_order_witness :
    runSendPayment .allOk initialStore "u" "v" 1 =
      (initialStore, some .accountNotFound) ∧
    runSendPayment .allOk initialStore "alice456" "eve789" 1 =
      (initialStore, some .currencyMismatch) ∧
    runSendPayment .allOk initialStore "alice456" "bob123" 100 =
      (initialStore, some .insufficientBalance) :=
  ⟨(sendPayment_transactional_order _ _ "u" "v" 1 (by decide) (by decide)
      (by decide) (by decide) rfl rfl).1
      (Or.inl (by with_unfolding_all decide)),
   (sendPayment_transactional_order _ _ "alice456" "eve789" 1 (by decide) (by decide)
      (by decide) (by decide) rfl rfl).2.1 ⟨"alice456", 1/100, "USD"⟩ ⟨"eve789", 50, "RUB"⟩
      (by with_unfolding_all decide) (by with_unfolding_all decide) (by decide),
   (sendPayment_transactional_order _ _ "alice456" "bob123" 100 (by decide) (by decide)
      (by decide) (by decide) rfl rfl).2.2 ⟨"alice456", 1/100, "USD"⟩ ⟨"bob123", 100, "USD"⟩
      (by with_unfolding_all decide) (by with_unfolding_all decide) rfl
      (by with_unfolding_all decide)⟩

lemma lockSequence_sorted (st : Store) (i j : String) :
    (lockSequence st i j).Pairwise idLe :=
  List.Pairwise.map _ (fun _ _ h => h)
    (List.sorted_insertionSort accLE (st.accounts.filter (fun a => a.id = i ∨ a.id = j)))

/-- C6: canonical lock order — the `FOR UPDATE` query locks the rows of
the two accounts in ascending id order (the canonical lexicographic
order), and the sequence is the same regardless of which account is the
source and which the destination.  Consequently, for any two transfers
against the same table, if one would lock `x` before `y` and the other
`y` before `x`, then `x = y`: no cycle of two waiters on distinct
accounts can form. -/
theorem sendPayment_lock_order (st : Store) (a b : String) :
    (lockSequence st a b).Pairwise idLe ∧
    lockSequence st a b = lockSequence st b a ∧
    (∀ c d x y, List.Sublist [x, y] (lockSequence st a b) →
      List.Sublist [y, x] (lockSequence st c d) → x = y) := by
  refine ⟨lockSequence_sorted st a b, ?_, ?_⟩
  · rw [lockSequence, lockSequence, accountsQuery, accountsQuery]
    have hfe : st.accounts.filter (fun x => x.id = a ∨ x.id = b) =
        st.accounts.filter (fun x => x.id = b ∨ x.id = a) :=
      List.filter_congr (fun x _ => decide_eq_decide.mpr or_comm)
    rw [hfe]
  · intro c d x y h1 h2
    have px : List.Pairwise idLe [x, y] :=
      List.Pairwise.sublist h1 (lockSequence_sorted st a b)
    have py : List.Pairwise idLe [y, x] :=
      List.Pairwise.sublist h2 (lockSequence_sorted st c d)
    have le1 : idLe x y := (List.pairwise_cons.mp px).1 y (by simp)
    have le2 : idLe y x := (List.pairwise_cons.mp py).1 x (by simp)
    exact idLe_antisymm le1 le2

/-- Witness for C6: in a table that (unrealistically) holds two rows with
the same id, both relative orders of the pair occur, and the conclusion
forces the two ids to coincide. -/
theorem sendPayment_lock_order_witness : ("a" : String) = "a" :=
  (sendPayment_lock_order dupStore "a" "b").2.2 "a" "b" "a" "a"
    (by rw [show lockSequence dupStore "a" "b" = ["a", "a"] from by
          with_unfolding_all decide])
    (by rw [show lockSequence dupStore "a" "b" = ["a", "a"] from by
          with_unfolding_all decide])

/-- C7: the payments listing is a derived view of the committed transfer
records in record-identifier order: it holds the records themselves (as a
permutation of the `payments` table, sorted by id), has exactly `2N`
entries for `N` records, and the record at position `i` contributes
exactly its outgoing entry (attributed to its source, with the record's
amount) at position `2i` and its incoming entry (attributed to its
destination, with the record's amount) at position `2i+1`. -/
theorem listPayments_view (st : Store) :
    (listPaymentItems st).length = 2 * st.payments.length ∧
    (listPayments st).Pairwise payLE ∧
    List.Perm (listPayments st) st.payments ∧
    (∀ (i : ℕ) (p : Payment), (listPayments st)[i]? = some p →
      (listPaymentItems st)[2 * i]? = some (outgoingItem p) ∧
      (listPaymentItems st)[2 * i + 1]? = some (incomingItem p)) := by
  refine ⟨?_, ?_, ?_, ?_⟩
  · rw [listPaymentItems, flatMap_paymentItems_length, listPayments,
      (List.perm_insertionSort payLE st.payments).length_eq]
  · exact List.sorted_insertionSort payLE st.payments
  · exact List.perm_insertionSort payLE st.payments
  · intro i p hp
    exact flatMap_paymentItems_getElem _ i p hp

/-- Witness for C7: the single record of `payStore` produces its outgoing
entry at position 0 and its incoming entry at position 1. -/
theorem listPayments_view_witness :
    (listPaymentItems payStore)[2 * 0]? = some (outgoingItem ⟨1, "x", "y", 2⟩) ∧
    (listPaymentItems payStore)[2 * 0 + 1]? = some (incomingItem ⟨1, "x", "y", 2⟩) :=
  (listPayments_view payStore).2.2.2 0 ⟨1, "x", "y", 2⟩ (by with_unfolding_all decide)

/-- C10: in the payments listing, the i-th record's outgoing entry is at
position `2i` and its incoming entry at position `2i+1`; the outgoing
entry carries the record's destination in `to_account` while its
`from_account` holds the zero value `""` and is therefore omitted by
`omitempty`, and the incoming entry carries the record's source in
`from_account` while its `to_account` is `""` and omitted. -/
theorem listPayments_item_fields (st : Store) :
    ∀ (i : ℕ) (p : Payment), (listPayments st)[i]? = some p →
      ((listPaymentItems st)[2 * i]?).map (·.fromAccount) = some "" ∧
      ((listPaymentItems st)[2 * i]?).map (·.toAccount) = some p.toAccountID ∧
      ((listPaymentItems st)[2 * i]?).map (·.direction) = some "outgoing" ∧
      ((listPaymentItems st)[2 * i + 1]?).map (·.fromAccount) = some p.fromAccountID ∧
      ((listPaymentItems st)[2 * i + 1]?).map (·.toAccount) = some "" ∧
      ((listPaymentItems st)[2 * i + 1]?).map (·.direction) = some "incoming" := by
  intro i p hp
  obtain ⟨h1, h2⟩ := flatMap_paymentItems_getElem (listPayments st) i p hp
  rw [listPaymentItems, h1, h2]
  simp [outgoingItem, incomingItem]

/-- Witness for C10: the fields of the two entries derived from the
single record of `payStore`. -/
theorem listPayments_item_fields_witness :
    ((listPaymentItems payStore)[2 * 0]?).map (·.fromAccount) = some "" ∧
    ((listPaymentItems payStore)[2 * 0]?).map (·.toAccount) = some (Payment.toAccountID ⟨1, "x", "y", 2⟩) ∧
    ((listPaymentItems payStore)[2 * 0]?).map (·.direction) = some "outgoing" ∧
    ((listPaymentItems payStore)[2 * 0 + 1]?).map (·.fromAccount) = some (Payment.fromAccountID ⟨1, "x", "y", 2⟩) ∧
    ((listPaymentItems payStore)[2 * 0 + 1]?).map (·.toAccount) = some "" ∧
    ((listPaymentItems payStore)[2 * 0 + 1]?).map (·.direction) = some "incoming" :=
  listPayments_item_fields payStore 0 ⟨1, "x", "y", 2⟩ (by with_unfolding_all decide)
